import Mathlib

/-!
# Verification of ShellPack core logic

A shallow embedding of the backup/restore logic of the `shellpack` tool
(`src/shellpack/core.py`, `src/shellpack/backup.py`, `src/shellpack/restore.py`)
together with theorems settling the frozen claims about it.

Modelling conventions:
* Python strings are `List Char` (restricted to the ASCII fragment where the
  relevant Python predicates such as `str.isalnum`/`str.isdigit` coincide with
  `Char.isAlphanum`/`Char.isDigit`), or `String` when only compared/sorted.
* File contents are `List Nat` (byte lists).
* The SHA-256 hasher of `calculate_checksum` is abstracted as an injective
  function of the byte stream fed to it; the embedding returns that stream
  itself, so stream equality corresponds to digest equality and stream
  inequality to digest inequality (under collision resistance).
* Filesystem side effects of backup routines are reified as explicit
  `Effect` lists; user-facing `print_status` lines as `StatusLine` lists.
* External commands (`run_command`) are an oracle `CmdOracle` mapping the
  argument vector to an exit code and stdout lines.
* Interactive input (`input()`) is a list of `InputEvent`s, where an
  exhausted list corresponds to end-of-file.
-/

/-! ## Character helpers -/

/-- The character class `[a-zA-Z0-9._-]` of `sanitize_name`
(`core.py` line 191: `re.sub(r"[^a-zA-Z0-9._-]", "", name)` keeps exactly these). -/
def isAllowedChar (c : Char) : Bool :=
  (('a' ≤ c) && (c ≤ 'z')) || (('A' ≤ c) && (c ≤ 'Z')) ||
    (('0' ≤ c) && (c ≤ '9')) || c == '.' || c == '_' || c == '-'

/-- Python `str.strip()` with no argument: remove leading and trailing whitespace. -/
def stripChars (s : List Char) : List Char :=
  ((s.dropWhile Char.isWhitespace).reverse.dropWhile Char.isWhitespace).reverse

/-- Python `str.isdigit()` on ASCII text: non-empty and all decimal digits. -/
def pyIsDigit (s : List Char) : Bool := !s.isEmpty && s.all Char.isDigit

/-- Python `int(...)` applied to a digit string. -/
def listToNat (s : List Char) : Nat := s.foldl (fun acc c => acc * 10 + (c.toNat - 48)) 0

/-- Python `str.isalnum()` on ASCII text: non-empty and all alphanumeric. -/
def pyIsAlnum (s : List Char) : Bool := !s.isEmpty && s.all Char.isAlphanum

/-! ## `sanitize_name` (`core.py` lines 190-197) -/

/-- `re.sub(r"\.\.+", ".", name)`: every maximal run of two or more dots is
replaced by a single dot (single dots are left alone).  The recursion drops a
dot whenever the next character is also a dot, which collapses each maximal
run of `k ≥ 2` dots to one dot, exactly as the leftmost-greedy regex does. -/
def collapseDots : List Char → List Char
  | [] => []
  | a :: rest =>
    if a == '.' && (rest.head? == some '.') then collapseDots rest
    else a :: collapseDots rest

/-- `True` iff the string contains two consecutive dots. -/
def hasDoubleDot : List Char → Bool
  | [] => false
  | [_] => false
  | a :: b :: rest => (a == '.' && b == '.') || hasDoubleDot (b :: rest)

/-- One decimal digit character of `n` (its last digit). -/
def digitChar (n : Nat) : Char := Char.ofNat (48 + n % 10)

/-- Two-digit zero-padded decimal rendering, as `strftime` does for
`%m %d %H %M %S`. -/
def pad2 (n : Nat) : List Char := [digitChar (n / 10), digitChar n]

/-- Four-digit zero-padded decimal rendering, as `strftime("%Y")` for
ordinary years. -/
def pad4 (n : Nat) : List Char :=
  [digitChar (n / 1000), digitChar (n / 100), digitChar (n / 10), digitChar n]

/-- `datetime.now().strftime("%Y%m%d-%H%M%S")`. -/
def timestampChars (y mo d h mi s : Nat) : List Char :=
  pad4 y ++ pad2 mo ++ pad2 d ++ ['-'] ++ pad2 h ++ pad2 mi ++ pad2 s

/-- The fallback name `f"backup-{datetime.now().strftime('%Y%m%d-%H%M%S')}"`
used when sanitisation leaves an empty name (`core.py` line 196). -/
def fallbackName (y mo d h mi s : Nat) : List Char :=
  ("backup-".data) ++ timestampChars y mo d h mi s

/-- `sanitize_name` (`core.py` lines 190-197): keep only `[a-zA-Z0-9._-]`,
collapse runs of dots, truncate to 100 characters, and fall back to a
timestamp-based name when the result is empty.  The wall-clock instant used
by the fallback is passed in as six numeric components. -/
def sanitize_name (name : List Char) (y mo d h mi s : Nat) : List Char :=
  let n1 := name.filter isAllowedChar
  let n2 := collapseDots n1
  let n3 := if 100 < n2.length then n2.take 100 else n2
  if n3.isEmpty then fallbackName y mo d h mi s else n3

/-! ## `read_choice` (`core.py` lines 147-163) -/

/-- One interaction with `input()`: either a typed line, or an
`EOFError`/`KeyboardInterrupt`. -/
inductive InputEvent
  | line (s : List Char)
  | interrupted
deriving DecidableEq

/-- Whether an already-stripped input line is accepted by `read_choice`:
`result.isdigit() and 1 <= int(result) <= len(options)`. -/
def validChoice (n : Nat) (r : List Char) : Bool :=
  pyIsDigit r && decide (1 ≤ listToNat r) && decide (listToNat r ≤ n)

/-- The error message printed by `read_choice` on invalid input:
`f"Invalid choice. Please enter 1-{len(options)}"`. -/
def invalidChoiceMsg (n : Nat) : List Char :=
  ("Invalid choice. Please enter 1-".data) ++ (Nat.repr n).data

/-- `read_choice` (`core.py` lines 147-163), instrumented with the list of
error messages it prints.  The loop reads a line per iteration: EOF or
interrupt returns 1, an empty (stripped) line returns the default 1, a digit
string in `1..len(options)` is returned, and anything else prints the
valid-range error and re-prompts.  An exhausted event list plays the role of
end-of-file on stdin. -/
def read_choice_run (options : List String) : List InputEvent → Nat × List (List Char)
  | [] => (1, [])
  | InputEvent.interrupted :: _ => (1, [])
  | InputEvent.line s :: rest =>
    let r := stripChars s
    if r.isEmpty then (1, [])
    else if validChoice options.length r then (listToNat r, [])
    else
      let next := read_choice_run options rest
      (next.1, invalidChoiceMsg options.length :: next.2)

/-- The return value of `read_choice`. -/
def read_choice (options : List String) (evs : List InputEvent) : Nat :=
  (read_choice_run options evs).1

/-! ## `calculate_checksum` (`core.py` lines 285-293)

A directory tree is modelled as the list of its regular files, each a pair of
its path (relative to the tree root, components separated by `'/'`) and its
byte content.  `Path.rglob("*")` also yields directories, but those are
discarded by the `is_file()` test, so they are not part of the model. -/

/-- A regular file of the tree: path and byte content. -/
abbrev FileEntry := String × List Nat

/-- `Path.name`: the final path component. -/
def baseName (p : String) : String :=
  String.mk ((p.data.reverse.takeWhile (fun c => c ≠ '/')).reverse)

/-- String comparison by code points, as Python's `sorted` compares `str`
and `pathlib` paths.  Stated on the underlying character lists, which makes
it both kernel-computable and provably the same order as `String.le`. -/
def strLe (a b : String) : Prop := a.data ≤ b.data

instance : DecidableRel strLe := fun a b => inferInstanceAs (Decidable (a.data ≤ b.data))

/-- `strLe` is exactly the `≤` of `String`. -/
theorem strLe_iff_le (a b : String) : strLe a b ↔ a ≤ b :=
  Iff.symm String.le_iff_toList_le

instance : IsTotal String strLe :=
  ⟨fun a b => (le_total a b).imp (strLe_iff_le a b).mpr (strLe_iff_le b a).mpr⟩

instance : IsTrans String strLe :=
  ⟨fun a b c h₁ h₂ => (strLe_iff_le a c).mpr
    (le_trans ((strLe_iff_le a b).mp h₁) ((strLe_iff_le b c).mp h₂))⟩

/-- `strLe` is antisymmetric. -/
theorem strLe_antisymm {a b : String} (h₁ : strLe a b) (h₂ : strLe b a) : a = b :=
  le_antisymm ((strLe_iff_le a b).mp h₁) ((strLe_iff_le b a).mp h₂)

/-- The comparison `sorted(directory.rglob("*"))` sorts by: the file paths. -/
def keyLe (a b : FileEntry) : Prop := strLe a.1 b.1

instance : DecidableRel keyLe := fun a b => inferInstanceAs (Decidable (strLe a.1 b.1))

instance : IsTotal FileEntry keyLe := ⟨fun a b => IsTotal.total (r := strLe) a.1 b.1⟩

instance : IsTrans FileEntry keyLe :=
  ⟨fun _ _ _ h₁ h₂ => Trans.trans (r := strLe) (s := strLe) h₁ h₂⟩

/-- The filter `filepath.name != "manifest.json"` of `calculate_checksum`. -/
def keepFile (f : FileEntry) : Bool := baseName f.1 != "manifest.json"

/-- `calculate_checksum` (`core.py` lines 285-293): iterate over the sorted
paths, skip every file whose base name is `manifest.json`, and feed each
remaining file's bytes to a SHA-256 hasher.  The digest is abstracted as an
injective function of the byte stream consumed by the hasher, so the
embedding returns that stream. -/
def calculate_checksum (files : List FileEntry) : List Nat :=
  ((((files.insertionSort keyLe).filter keepFile).map Prod.snd)).flatten

/-! ## Effects and statuses of the backup category routines (`backup.py`) -/

/-- A reified filesystem / subprocess side effect of a category routine. -/
inductive Effect
  | mkdirE (path : String)
  | writeE (path : String)
  | runE (cmd : List String)
  | gitRun (workdir : String) (args : List String)
deriving DecidableEq

/-- Whether an effect is a directory creation. -/
def Effect.isMkdir : Effect → Bool
  | .mkdirE _ => true
  | _ => false

/-- Whether an effect writes file data (copy, `write_text`, tar creation). -/
def Effect.isWrite : Effect → Bool
  | .writeE _ => true
  | _ => false

/-- The status kinds accepted by `print_status` that the routines use. -/
inductive StatusKind
  | ok
  | skip
  | info
  | warn
  | error
deriving DecidableEq

/-- One `print_status(message, status)` call. -/
abbrev StatusLine := String × StatusKind

/-- The home directory contents a routine inspects: existing regular files and
existing directories, as home-relative (or absolute) path strings. -/
structure HomeFS where
  files : List String
  dirs : List String
deriving DecidableEq

/-- Result of `run_command`: exit code and the lines of captured stdout. -/
abbrev CmdOracle := List String → Nat × List (List Char)

/-- `backup_fish` (`backup.py` lines 21-36). -/
def backup_fish (fs : HomeFS) (dry : Bool) : List Effect × List StatusLine :=
  if !(fs.dirs.contains ".config/fish") then
    ([], [("Fish config not found", StatusKind.skip)])
  else if dry then
    ([Effect.mkdirE "shells/fish"], [("[DRY RUN] Would backup Fish config", StatusKind.info)])
  else
    ([Effect.mkdirE "shells/fish", Effect.writeE "shells/fish/fish_config.tar.gz"],
     [("Fish config", StatusKind.ok)])

/-- The fixed allowlist of `backup_bash` (`backup.py` line 40). -/
def bashFileNames : List String :=
  [".bashrc", ".bash_aliases", ".bash_profile", ".profile", ".bash_logout"]

/-- `backup_bash` (`backup.py` lines 39-53).  Note that the status only
depends on the number of files found, not on the dry-run flag. -/
def backup_bash (fs : HomeFS) (dry : Bool) : List Effect × List StatusLine :=
  let present := bashFileNames.filter (fun f => fs.files.contains f)
  let eff := Effect.mkdirE "shells/bash"
    :: (if dry then [] else present.map (fun f => Effect.writeE ("shells/bash/" ++ f)))
  let st := if present.length > 0 then
      [("Bash config (" ++ Nat.repr present.length ++ " files)", StatusKind.ok)]
    else [("Bash config not found", StatusKind.skip)]
  (eff, st)

/-- The fixed allowlist of `backup_zsh` (`backup.py` line 57). -/
def zshFileNames : List String :=
  [".zshrc", ".zprofile", ".zshenv", ".zlogin", ".zlogout"]

/-- `backup_zsh` (`backup.py` lines 56-79). -/
def backup_zsh (fs : HomeFS) (dry : Bool) : List Effect × List StatusLine :=
  let present := zshFileNames.filter (fun f => fs.files.contains f)
  let copyEff := if dry then [] else present.map (fun f => Effect.writeE ("shells/zsh/" ++ f))
  let omz := fs.dirs.contains ".oh-my-zsh"
  let omzEff := if omz && !dry then [Effect.writeE "shells/zsh/ohmyzsh.tar.gz"] else []
  let st := if omz then [("Zsh config + Oh-My-Zsh", StatusKind.ok)]
    else if present.length > 0 then
      [("Zsh config (" ++ Nat.repr present.length ++ " files)", StatusKind.ok)]
    else [("Zsh config not found", StatusKind.skip)]
  (Effect.mkdirE "shells/zsh" :: copyEff ++ omzEff, st)

/-- `backup_packages` (`backup.py` lines 82-117).  Each manager subcommand is
run through the oracle; its output file is written only when the exit code is
zero.  The per-manager status line is printed unconditionally. -/
def backup_packages (dry : Bool) (pm : String) (oracle : CmdOracle) :
    List Effect × List StatusLine :=
  let eff0 := [Effect.mkdirE "packages"]
  if dry then
    (eff0, [("[DRY RUN] Would backup package list (" ++ pm ++ ")", StatusKind.info)])
  else if pm == "apt" then
    let r1 := oracle ["apt", "list", "--installed"]
    let e1 := if r1.1 == 0 then [Effect.writeE "packages/apt_packages.txt"] else []
    let r2 := oracle ["apt-mark", "showmanual"]
    let e2 := if r2.1 == 0 then [Effect.writeE "packages/apt_manual.txt"] else []
    (eff0 ++ [Effect.runE ["apt", "list", "--installed"]] ++ e1
       ++ [Effect.runE ["apt-mark", "showmanual"]] ++ e2,
     [("APT packages", StatusKind.ok)])
  else if pm == "brew" then
    let subs : List (List String × String) :=
      [(["brew", "list", "--formula"], "brew_formula.txt"),
       (["brew", "list", "--cask"], "brew_cask.txt"),
       (["brew", "leaves"], "brew_leaves.txt")]
    let eff := subs.flatMap (fun sub =>
      Effect.runE sub.1 ::
        (if (oracle sub.1).1 == 0 then [Effect.writeE ("packages/" ++ sub.2)] else []))
    (eff0 ++ eff, [("Homebrew packages", StatusKind.ok)])
  else if pm == "dnf" || pm == "yum" then
    let r := oracle ["rpm", "-qa"]
    let e := if r.1 == 0 then [Effect.writeE "packages/rpm_packages.txt"] else []
    (eff0 ++ [Effect.runE ["rpm", "-qa"]] ++ e, [("RPM packages", StatusKind.ok)])
  else if pm == "pacman" then
    let r1 := oracle ["pacman", "-Qe"]
    let e1 := if r1.1 == 0 then [Effect.writeE "packages/pacman_packages.txt"] else []
    let r2 := oracle ["pacman", "-Qm"]
    let e2 := if r2.1 == 0 then [Effect.writeE "packages/pacman_aur.txt"] else []
    (eff0 ++ [Effect.runE ["pacman", "-Qe"]] ++ e1 ++ [Effect.runE ["pacman", "-Qm"]] ++ e2,
     [("Pacman packages", StatusKind.ok)])
  else
    (eff0, [("Package manager not supported: " ++ pm, StatusKind.skip)])

/-- `backup_starship` (`backup.py` lines 120-129).  The copy is guarded by the
dry-run flag but the `"ok"` status line is not. -/
def backup_starship (fs : HomeFS) (dry : Bool) : List Effect × List StatusLine :=
  if !(fs.files.contains ".config/starship.toml") then
    ([], [("Starship config not found", StatusKind.skip)])
  else
    (Effect.mkdirE "config" :: (if dry then [] else [Effect.writeE "config/starship.toml"]),
     [("Starship config", StatusKind.ok)])

/-- `backup_git_config` (`backup.py` lines 132-141). -/
def backup_git_config (fs : HomeFS) (dry : Bool) : List Effect × List StatusLine :=
  if !(fs.files.contains ".gitconfig") then
    ([], [("Git config not found", StatusKind.skip)])
  else
    (Effect.mkdirE "config" :: (if dry then [] else [Effect.writeE "config/.gitconfig"]),
     [("Git config", StatusKind.ok)])

/-- `backup_ssh` (`backup.py` lines 144-162), successful-archive path. -/
def backup_ssh (fs : HomeFS) (dry : Bool) : List Effect × List StatusLine :=
  if !(fs.dirs.contains ".ssh") then
    ([], [("SSH directory not found", StatusKind.skip)])
  else if dry then
    ([Effect.mkdirE "ssh"], [("[DRY RUN] Would backup SSH keys", StatusKind.info)])
  else
    ([Effect.mkdirE "ssh", Effect.writeE "ssh/ssh_backup.tar.gz"],
     [("SSH keys", StatusKind.ok)])

/-- `parts[0]` of `line.split()` for an already-stripped line. -/
def firstToken (s : List Char) : List Char := s.takeWhile (fun c => !c.isWhitespace)

/-- `name.replace("-", "").replace("_", "")`. -/
def removeDashUnderscore (s : List Char) : List Char :=
  s.filter (fun c => c != '-' && c != '_')

/-- The environment-name filter of `backup_conda` (`backup.py` lines 192-199):
for each stdout line of `conda env list`, strip it, skip blank and `#` comment
lines, take the first whitespace-separated token, and keep it when it is not
the `*` marker and `name.replace("-", "").replace("_", "").isalnum()` holds. -/
def conda_env_names (lines : List (List Char)) : List (List Char) :=
  lines.filterMap (fun line =>
    let l := stripChars line
    if l.isEmpty then none
    else if l.head? == some '#' then none
    else
      let name := firstToken l
      if name != ['*'] && pyIsAlnum (removeDashUnderscore name) then some name else none)

/-- The candidate Conda install prefixes of `backup_conda`
(`backup.py` lines 166-172). -/
def condaCandidates : List String :=
  ["miniconda3", "anaconda3", "miniforge3",
   "/opt/homebrew/Caskroom/miniconda/base", "/usr/local/miniconda3"]

/-- `backup_conda` (`backup.py` lines 165-210). -/
def backup_conda (fs : HomeFS) (dry : Bool) (oracle : CmdOracle) :
    List Effect × List StatusLine :=
  match condaCandidates.find? (fun p => fs.files.contains (p ++ "/bin/conda")) with
  | none => ([], [("Conda not found", StatusKind.skip)])
  | some p =>
    let condaBin := p ++ "/bin/conda"
    let eff0 := [Effect.mkdirE "conda"]
    if dry then
      (eff0, [("[DRY RUN] Would backup Conda environments", StatusKind.info)])
    else
      let r := oracle [condaBin, "env", "list"]
      let eff1 := eff0 ++ [Effect.runE [condaBin, "env", "list"]]
      if r.1 != 0 then
        (eff1, [("Conda environments (timeout or error)", StatusKind.warn)])
      else
        let envs := conda_env_names r.2
        let res := envs.foldl (fun (acc : List Effect × Nat) env =>
          let cmd := [condaBin, "env", "export", "-n", String.mk env]
          if (oracle cmd).1 == 0 then
            (acc.1 ++ [Effect.runE cmd, Effect.writeE ("conda/" ++ String.mk env ++ ".yml")],
             acc.2 + 1)
          else (acc.1 ++ [Effect.runE cmd], acc.2)) ([], 0)
        if res.2 > 0 then
          (eff1 ++ res.1, [("Conda environments (" ++ Nat.repr res.2 ++ ")", StatusKind.ok)])
        else
          (eff1 ++ res.1, [("Conda environments (none exported)", StatusKind.warn)])

/-- `backup_history` (`backup.py` lines 213-235). -/
def backup_history (fs : HomeFS) (dry : Bool) : List Effect × List StatusLine :=
  let eff0 := [Effect.mkdirE "history"]
  if dry then
    (eff0, [("[DRY RUN] Would backup shell history", StatusKind.info)])
  else
    let histFiles := [".bash_history", ".zsh_history"].filter (fun f => fs.files.contains f)
    let copyEff := histFiles.map (fun f => Effect.writeE ("history/" ++ f))
    let fishDir := fs.dirs.contains ".local/share/fish"
    let fishEff := if fishDir then [Effect.writeE "history/fish"] else []
    let found := histFiles.length > 0 || fishDir
    let st := if found then [("Shell history", StatusKind.ok)]
      else [("Shell history (not found)", StatusKind.skip)]
    (eff0 ++ copyEff ++ fishEff, st)

/-- `backup_cloud_creds` (`backup.py` lines 238-258).  The archive loop is
guarded by the dry-run flag, but the status branch reports `"ok"` whenever
`found > 0 or config.dry_run`. -/
def backup_cloud_creds (fs : HomeFS) (dry : Bool) : List Effect × List StatusLine :=
  let targets : List (String × String) :=
    [("aws", ".aws"), ("azure", ".azure"), ("gcloud", ".config/gcloud")]
  let present := if dry then [] else targets.filter (fun t => fs.dirs.contains t.2)
  let eff := Effect.mkdirE "config/cloud"
    :: present.map (fun t => Effect.writeE ("config/cloud/" ++ t.1 ++ ".tar.gz"))
  let st := if present.length > 0 || dry then
      [("Cloud credentials (" ++ Nat.repr present.length ++ ")", StatusKind.ok)]
    else [("Cloud credentials not found", StatusKind.skip)]
  (eff, st)

/-! ## The category sequencing of `do_backup` (`backup.py` lines 366-469) -/

/-- The sequence of category routines invoked by `do_backup`, as a function of
the backup-type choice (`read_choice` result, `2` = shareable), the five
yes/no answers, and the selected shells.  The inclusion flags are initialised
to `False` and only (re)assigned from the answers in the non-shareable branch
(`backup.py` lines 372-400); the Conda answer is read in both branches.  The
invocation order follows lines 434-469: selected shells, packages, starship,
then the conditional git-config, ssh, conda, history and cloud-credential
categories. -/
def do_backup_categories (typeChoice : Nat)
    (aSsh aGit aHist aCloud aConda : Bool) (shells : List String) : List String :=
  let isShareable := typeChoice == 2
  let includeSsh := !isShareable && aSsh
  let includeGit := !isShareable && aGit
  let includeHist := !isShareable && aHist
  let includeCloud := !isShareable && aCloud
  let includeConda := aConda
  (shells.filter (fun sh => sh == "fish" || sh == "bash" || sh == "zsh"))
    ++ ["packages", "starship"]
    ++ (if includeGit then ["git_config"] else [])
    ++ (if includeSsh then ["ssh"] else [])
    ++ (if includeConda then ["conda"] else [])
    ++ (if includeHist then ["history"] else [])
    ++ (if includeCloud then ["cloud_creds"] else [])

/-! ## `init_repo` (`core.py` lines 369-375) and the clone fallback
(`backup.py` lines 490-495) -/

/-- The side effects of `init_repo(dest_dir, repo_url)`:
`dest_dir.mkdir(...)`, then `run_command(["git", "init"])` — which executes
`git init` in the process's current working directory, since no `-C`/`cwd`
is passed — then `run_command(["git", "-C", str(dest_dir), "remote", "add",
"origin", repo_url])`, which runs in `dest_dir`. -/
def init_repo_effects (cwd dest url : String) : List Effect :=
  [Effect.mkdirE dest,
   Effect.gitRun cwd ["init"],
   Effect.gitRun dest ["remote", "add", "origin", url]]

/-- The possible outcomes of the clone-or-init phase of `do_backup`. -/
inductive RepoSetup
  | cloned
  | initialized
  | fatal
deriving DecidableEq

/-- `do_backup` lines 490-495: on clone failure it falls back to `init_repo`;
only a failure of the fallback itself aborts the backup. -/
def backup_repo_setup (cloneOk initOk : Bool) : RepoSetup :=
  if cloneOk then RepoSetup.cloned
  else if initOk then RepoSetup.initialized
  else RepoSetup.fatal

/-! ## Backup listing and selection of `do_restore`
(`restore.py` lines 380-396) -/

/-- `sorted([d.name for d in backups_dir.iterdir() if d.is_dir()])`: the
entries of `backups/` are modelled as `(name, is_dir)` pairs in arbitrary
enumeration order. -/
def list_backups (entries : List (String × Bool)) : List String :=
  ((entries.filter (fun e => e.2)).map (fun e => e.1)).insertionSort strLe

/-- The backup-selection step of `do_restore` (`restore.py` lines 380-396):
abort fatally when no backup directory exists, otherwise pick the backup at
the 1-based index returned by `read_choice`. -/
def select_backup (entries : List (String × Bool)) (evs : List InputEvent) :
    Except String String :=
  let backups := list_backups entries
  if backups.isEmpty then Except.error "No backups found in repository"
  else Except.ok (backups.getD (read_choice backups evs - 1) "")

/-! ## Spec-side definitions for the Conda name filter (refinement check) -/

/-- Modelled from the spec's words (§4.4: "filtering out comment lines, blank
lines, and the active-environment marker; keep names matching
`[A-Za-z0-9_-]+`"), for comparison against `conda_env_names`. -/
def conda_env_names_spec (lines : List (List Char)) : List (List Char) :=
  lines.filterMap (fun line =>
    let l := stripChars line
    if l.isEmpty then none
    else if l.head? == some '#' then none
    else
      let name := firstToken l
      if name != ['*'] && !name.isEmpty
          && name.all (fun c => c.isAlphanum || c == '-' || c == '_') then
        some name
      else none)

/-- The amended per-line filter: as the spec's, plus the requirement that the
name contains at least one alphanumeric character (names made up solely of
`-` and `_` are rejected by the code's `isalnum()` test). -/
def condaAmendedKeep (line : List Char) : Option (List Char) :=
  let l := stripChars line
  if l.isEmpty then none
  else if l.head? == some '#' then none
  else
    let name := firstToken l
    if name != ['*'] && !name.isEmpty
        && name.all (fun c => c.isAlphanum || c == '-' || c == '_')
        && name.any Char.isAlphanum then
      some name
    else none

/-- A command oracle on which every invocation fails with exit code 1. -/
def failOracle : CmdOracle := fun _ => (1, [])

/-- The empty home directory. -/
def emptyHome : HomeFS := ⟨[], []⟩

/-! # Theorems -/

/-! ## C3: shareable backups never invoke the sensitive categories -/

/-- Any category invoked under the shareable backup type (`read_choice`
result 2) is one of the non-sensitive ones. -/
theorem mem_do_backup_categories_shareable
    (aSsh aGit aHist aCloud aConda : Bool) (shells : List String) (cat : String)
    (h : cat ∈ do_backup_categories 2 aSsh aGit aHist aCloud aConda shells) :
    cat = "fish" ∨ cat = "bash" ∨ cat = "zsh" ∨ cat = "packages" ∨ cat = "starship"
      ∨ cat = "conda" := by
  cases aConda <;>
    simp [do_backup_categories, List.mem_filter, List.mem_append] at h <;>
    tauto

/-- C3: in the backup orchestrator, selecting the "shareable" backup type
(`type_choice = 2`) means the SSH, git-config, shell-history and
cloud-credential routines are never invoked, regardless of the stray yes/no
answers and of the shell selection. -/
theorem C3_shareable_excludes_sensitive
    (aSsh aGit aHist aCloud aConda : Bool) (shells : List String) :
    "ssh" ∉ do_backup_categories 2 aSsh aGit aHist aCloud aConda shells
    ∧ "git_config" ∉ do_backup_categories 2 aSsh aGit aHist aCloud aConda shells
    ∧ "history" ∉ do_backup_categories 2 aSsh aGit aHist aCloud aConda shells
    ∧ "cloud_creds" ∉ do_backup_categories 2 aSsh aGit aHist aCloud aConda shells := by
  refine ⟨fun h => ?_, fun h => ?_, fun h => ?_, fun h => ?_⟩ <;>
    rcases mem_do_backup_categories_shareable aSsh aGit aHist aCloud aConda shells _ h with
      h | h | h | h | h | h <;> simp at h

/-- Witness for C3 with all stray flags set and two shells selected. -/
theorem C3_shareable_excludes_sensitive_witness :
    "ssh" ∉ do_backup_categories 2 true true true true true ["fish", "bash"]
    ∧ "git_config" ∉ do_backup_categories 2 true true true true true ["fish", "bash"]
    ∧ "history" ∉ do_backup_categories 2 true true true true true ["fish", "bash"]
    ∧ "cloud_creds" ∉ do_backup_categories 2 true true true true true ["fish", "bash"] :=
  C3_shareable_excludes_sensitive true true true true true ["fish", "bash"]

/-! ## C4: the clone-failure fallback and the `git init` working directory -/

/-- C4: when the clone fails during backup the orchestrator falls back to
`init_repo` and continues if it succeeds (non-fatal), but `init_repo` runs
`git init` in the process's current working directory — here `/root/project`
— and not in the destination directory `/tmp/shellpack_1/git`, while the
`origin` remote is added with `-C` pointing at the destination.  So no fresh
repository is initialised at the destination directory, contradicting the
claim. -/
theorem C4_init_repo_cwd_bug :
    backup_repo_setup false true = RepoSetup.initialized
    ∧ Effect.gitRun "/root/project" ["init"]
        ∈ init_repo_effects "/root/project" "/tmp/shellpack_1/git"
            "git@github.com:user/backup.git"
    ∧ Effect.gitRun "/tmp/shellpack_1/git" ["init"]
        ∉ init_repo_effects "/root/project" "/tmp/shellpack_1/git"
            "git@github.com:user/backup.git"
    ∧ Effect.gitRun "/tmp/shellpack_1/git" ["remote", "add", "origin", "git@github.com:user/backup.git"]
        ∈ init_repo_effects "/root/project" "/tmp/shellpack_1/git"
            "git@github.com:user/backup.git" := by
  refine ⟨rfl, ?_, ?_, ?_⟩ <;> decide

/-! ## Counterexamples for the corrected claims -/

/-- C1 counterexample: adding the file `notes.txt` with empty content to a
tree does not change the byte stream fed to the SHA-256 hasher, hence not
the digest either — refuting "adding any file changes the digest". -/
theorem C1_counterexample_empty_file_same_digest :
    calculate_checksum [("notes.txt", ([] : List Nat))] = calculate_checksum [] := by
  decide

/-- C2 counterexample: with dry-run enabled, `backup_cloud_creds` reports the
`"ok"` status (not an "info"/dry-run status), because its status branch is
`if found > 0 or config.dry_run`. -/
theorem C2_counterexample_cloud_ok_in_dry_run :
    ((backup_cloud_creds emptyHome true).2.map Prod.snd) = [StatusKind.ok] := by
  decide

/-- C5 counterexample: with every apt subcommand failing (exit code 1),
`backup_packages` writes no output file yet still reports `"APT packages"`
as `"ok"` — refuting "ok if and only if at least one file was produced". -/
theorem C5_counterexample_apt_ok_with_no_files :
    ((backup_packages false "apt" failOracle).1.all (fun e => !e.isWrite)) = true
    ∧ (backup_packages false "apt" failOracle).2 = [("APT packages", StatusKind.ok)] := by
  constructor <;> decide

/-- C7 counterexample: an empty input line is non-numeric, yet `read_choice`
returns the default selection 1 without printing any valid-range error —
refuting "out-of-range or non-numeric input causes a re-prompt with an
explicit valid-range error rather than a selection". -/
theorem C7_counterexample_empty_input_selects_default :
    read_choice_run ["bash-host1-20240101", "zsh-host2-20240215"]
      [InputEvent.line []] = (1, []) := by
  decide

/-- C8 counterexample: the environment name `-` matches `[A-Za-z0-9_-]+` and
occurs on a clean line, so the spec's filter keeps it, but the code's
`name.replace("-", "").replace("_", "").isalnum()` test rejects it. -/
theorem C8_counterexample_dash_name :
    conda_env_names [['-']] = [] ∧ conda_env_names_spec [['-']] = [['-']] := by
  constructor <;> decide

/-! ## C8 (amended): the Conda environment-name filter -/

/-- `'-'` is not alphanumeric. -/
theorem not_isAlphanum_dash : Char.isAlphanum '-' = false := by decide

/-- `'_'` is not alphanumeric. -/
theorem not_isAlphanum_underscore : Char.isAlphanum '_' = false := by decide

/-- The code's `name.replace("-", "").replace("_", "").isalnum()` test is
equivalent to: every character of the name is alphanumeric, a dash or an
underscore, and at least one character is alphanumeric. -/
theorem pyIsAlnum_removeDashUnderscore (n : List Char) :
    pyIsAlnum (removeDashUnderscore n)
      = (!n.isEmpty && n.all (fun c => c.isAlphanum || c == '-' || c == '_')
          && n.any Char.isAlphanum) := by
  rw [Bool.eq_iff_iff]
  simp only [pyIsAlnum, removeDashUnderscore, Bool.and_eq_true, Bool.not_eq_true',
    List.isEmpty_eq_false, List.all_eq_true, List.any_eq_true,
    Bool.or_eq_true, beq_iff_eq]
  constructor
  · rintro ⟨hne, hall⟩
    obtain ⟨c, hc⟩ := List.exists_mem_of_ne_nil _ hne
    have hcn : c ∈ n := (List.mem_filter.mp hc).1
    refine ⟨⟨List.ne_nil_of_mem hcn, ?_⟩, c, hcn, hall c hc⟩
    intro a ha
    by_cases hd : a = '-'
    · exact Or.inl (Or.inr hd)
    by_cases hu : a = '_'
    · exact Or.inr hu
    refine Or.inl (Or.inl (hall a (List.mem_filter.mpr ⟨ha, ?_⟩)))
    simp [hd, hu]
  · rintro ⟨⟨-, hall⟩, c, hc, hca⟩
    have hd : c ≠ '-' := fun h => by
      rw [h] at hca; exact absurd hca (by decide)
    have hu : c ≠ '_' := fun h => by
      rw [h] at hca; exact absurd hca (by decide)
    have hcmem : c ∈ List.filter (fun c => c != '-' && c != '_') n :=
      List.mem_filter.mpr ⟨hc, by simp [hd, hu]⟩
    refine ⟨List.ne_nil_of_mem hcmem, ?_⟩
    intro a ha
    obtain ⟨han, had⟩ := List.mem_filter.mp ha
    simp only [Bool.and_eq_true, bne_iff_ne, ne_eq] at had
    rcases hall a han with (h | h) | h
    · exact h
    · exact absurd h had.1
    · exact absurd h had.2

/-- C8 (amended): the names kept by `backup_conda`'s environment filter are
exactly the first tokens of the non-blank, non-comment lines that are not the
`*` marker, consist only of characters from `[A-Za-z0-9_-]`, and contain at
least one alphanumeric character (so names made up solely of dashes and
underscores are excluded, on top of the spec's character-class condition). -/
theorem C8_conda_filter_amended (lines : List (List Char)) :
    conda_env_names lines = lines.filterMap condaAmendedKeep := by
  unfold conda_env_names condaAmendedKeep
  apply List.filterMap_congr
  intro line _
  by_cases h1 : (stripChars line).isEmpty
  · simp [h1]
  by_cases h2 : (stripChars line).head? == some '#'
  · simp [h1, h2]
  simp [h1, h2, pyIsAlnum_removeDashUnderscore, Bool.and_assoc]

/-- Witness for C8 (amended) on a small `conda env list` output. -/
theorem C8_conda_filter_amended_witness :
    conda_env_names [['#', ' ', 'c'], ['b', 'a', 's', 'e'], ['-'], ['m', 'y', '-', 'e', 'n', 'v']]
      = ([['#', ' ', 'c'], ['b', 'a', 's', 'e'], ['-'],
          ['m', 'y', '-', 'e', 'n', 'v']].filterMap condaAmendedKeep) :=
  C8_conda_filter_amended
    [['#', ' ', 'c'], ['b', 'a', 's', 'e'], ['-'], ['m', 'y', '-', 'e', 'n', 'v']]

/-! ## C1 and C9: the checksum byte stream -/

/-- Two lists of file entries that are permutations of each other, both
sorted by path, with duplicate-free paths, are equal. -/
theorem sorted_key_perm_eq :
    ∀ {l₁ l₂ : List FileEntry}, l₁.Perm l₂ → l₁.Sorted keyLe → l₂.Sorted keyLe →
      (l₁.map Prod.fst).Nodup → l₁ = l₂ := by
  intro l₁
  induction l₁ with
  | nil =>
    intro l₂ hp _ _ _
    exact hp.symm.eq_nil.symm
  | cons a t ih =>
    intro l₂ hp hs₁ hs₂ hnd
    cases l₂ with
    | nil => exact absurd hp.eq_nil (by simp)
    | cons b t₂ =>
      have hab : a = b := by
        by_contra hne
        have ha2 : a ∈ b :: t₂ := hp.mem_iff.mp (List.mem_cons_self a t)
        have hb1 : b ∈ a :: t := hp.mem_iff.mpr (List.mem_cons_self b t₂)
        have ha2' : a ∈ t₂ := by
          rcases List.mem_cons.mp ha2 with h | h
          · exact absurd h hne
          · exact h
        have hb1' : b ∈ t := by
          rcases List.mem_cons.mp hb1 with h | h
          · exact absurd h.symm hne
          · exact h
        have h1 : keyLe a b := List.rel_of_sorted_cons hs₁ b hb1'
        have h2 : keyLe b a := List.rel_of_sorted_cons hs₂ a ha2'
        have hkey : a.1 = b.1 := strLe_antisymm h1 h2
        have hmem : a.1 ∈ t.map Prod.fst := by
          rw [hkey]
          exact List.mem_map_of_mem Prod.fst hb1'
        rw [List.map_cons] at hnd
        exact (List.nodup_cons.mp hnd).1 hmem
      subst hab
      have hnd' : (t.map Prod.fst).Nodup := by
        rw [List.map_cons] at hnd
        exact (List.nodup_cons.mp hnd).2
      rw [ih hp.cons_inv hs₁.of_cons hs₂.of_cons hnd']

/-- Enumeration-order invariance: `calculate_checksum` gives the same stream
on any permutation of a file list with duplicate-free paths. -/
theorem calculate_checksum_perm (l₁ l₂ : List FileEntry) (hp : l₁.Perm l₂)
    (hnd : (l₁.map Prod.fst).Nodup) :
    calculate_checksum l₁ = calculate_checksum l₂ := by
  have hsort : l₁.insertionSort keyLe = l₂.insertionSort keyLe := by
    apply sorted_key_perm_eq
    · exact (List.perm_insertionSort keyLe l₁).trans
        (hp.trans (List.perm_insertionSort keyLe l₂).symm)
    · exact List.sorted_insertionSort keyLe l₁
    · exact List.sorted_insertionSort keyLe l₂
    · exact (((List.perm_insertionSort keyLe l₁).map Prod.fst).nodup_iff).mpr hnd
  unfold calculate_checksum
  rw [hsort]

/-- Two trees whose non-`manifest.json` files agree up to enumeration order
(with duplicate-free paths) have the same checksum stream. -/
theorem calculate_checksum_eq_of_filter_perm (l₁ l₂ : List FileEntry)
    (hfp : (l₁.filter keepFile).Perm (l₂.filter keepFile))
    (hnd : ((l₁.filter keepFile).map Prod.fst).Nodup) :
    calculate_checksum l₁ = calculate_checksum l₂ := by
  have hperm : ((l₁.insertionSort keyLe).filter keepFile).Perm
      ((l₂.insertionSort keyLe).filter keepFile) :=
    ((List.perm_insertionSort keyLe l₁).filter keepFile).trans
      (hfp.trans (((List.perm_insertionSort keyLe l₂).filter keepFile).symm))
  have heq := sorted_key_perm_eq hperm
    ((List.sorted_insertionSort keyLe l₁).filter keepFile)
    ((List.sorted_insertionSort keyLe l₂).filter keepFile)
    (((((List.perm_insertionSort keyLe l₁).filter keepFile).map Prod.fst).nodup_iff).mpr hnd)
  unfold calculate_checksum
  rw [heq]

/-- The length of the checksum stream is the total size of the kept files. -/
theorem calculate_checksum_length (l : List FileEntry) :
    (calculate_checksum l).length
      = ((l.filter keepFile).map (fun f => f.2.length)).sum := by
  unfold calculate_checksum
  rw [List.length_flatten, List.map_map]
  have hperm := (List.perm_insertionSort keyLe l).filter keepFile
  have hsum := (hperm.map (List.length ∘ Prod.snd)).sum_eq
  simpa [Function.comp] using hsum

/-- Adding a file with non-empty content (not named `manifest.json`) changes
the checksum stream. -/
theorem calculate_checksum_cons_ne (l : List FileEntry) (p : String) (c : List Nat)
    (hc : c ≠ []) (hk : keepFile (p, c) = true) :
    calculate_checksum ((p, c) :: l) ≠ calculate_checksum l := by
  intro he
  have hlen := congrArg List.length he
  rw [calculate_checksum_length, calculate_checksum_length] at hlen
  simp only [List.filter_cons, hk, if_true, List.map_cons, List.sum_cons] at hlen
  have hz : c.length = 0 := by omega
  exact hc (List.length_eq_zero.mp hz)

/-- Sortedness by path only depends on the paths. -/
theorem sorted_keyLe_iff_map (l : List FileEntry) :
    l.Sorted keyLe ↔ (l.map Prod.fst).Sorted strLe := by
  have base : (l.map Prod.fst).Pairwise strLe ↔ l.Pairwise (fun a b => strLe a.1 b.1) :=
    List.pairwise_map
  exact ⟨fun h => base.mpr h, fun h => base.mp h⟩

/-- Changing the content of one (kept) file of a sorted tree changes the
checksum stream. -/
theorem calculate_checksum_modified (u v : List FileEntry) (p : String)
    (c c' : List Nat) (hs : (u ++ (p, c) :: v).Sorted keyLe)
    (hk : keepFile (p, c) = true) (hne : c ≠ c') :
    calculate_checksum (u ++ (p, c) :: v) ≠ calculate_checksum (u ++ (p, c') :: v) := by
  have hk' : keepFile (p, c') = true := hk
  have hs' : (u ++ (p, c') :: v).Sorted keyLe := by
    apply (sorted_keyLe_iff_map _).mpr
    have hmap : (u ++ (p, c') :: v).map Prod.fst = (u ++ (p, c) :: v).map Prod.fst := by
      simp
    rw [hmap]
    exact (sorted_keyLe_iff_map _).mp hs
  unfold calculate_checksum
  rw [hs.insertionSort_eq, hs'.insertionSort_eq]
  simp only [List.filter_append, List.filter_cons, hk, hk', if_true,
    List.map_append, List.map_cons, List.flatten_append, List.flatten_cons]
  intro he
  exact hne (List.append_cancel_right (List.append_cancel_left he))

/-- C1 (amended): the checksum stream is deterministic and independent of the
file enumeration order (for duplicate-free paths); modifying the content of
any file not named `manifest.json` changes the stream; and adding a file
changes the stream provided its content is non-empty and its base name is
not `manifest.json` (adding an empty file leaves the digest unchanged, as
`C1_counterexample_empty_file_same_digest` shows). -/
theorem C1_checksum_amended (l₁ l₂ u v : List FileEntry) (p q : String)
    (c c' w : List Nat)
    (hperm : l₁.Perm l₂) (hnd : (l₁.map Prod.fst).Nodup)
    (hsorted : (u ++ (p, c) :: v).Sorted keyLe) (hkp : keepFile (p, c) = true)
    (hmod : c ≠ c') (hkq : keepFile (q, w) = true) (hw : w ≠ []) :
    calculate_checksum l₁ = calculate_checksum l₂
    ∧ calculate_checksum (u ++ (p, c) :: v) ≠ calculate_checksum (u ++ (p, c') :: v)
    ∧ calculate_checksum ((q, w) :: l₁) ≠ calculate_checksum l₁ :=
  ⟨calculate_checksum_perm l₁ l₂ hperm hnd,
   calculate_checksum_modified u v p c c' hsorted hkp hmod,
   calculate_checksum_cons_ne l₁ q w hw hkq⟩

/-- Witness for C1 (amended) on a concrete two-file tree. -/
theorem C1_checksum_amended_witness :
    calculate_checksum [("b.txt", [1]), ("a.txt", [2])]
        = calculate_checksum [("a.txt", [2]), ("b.txt", [1])]
    ∧ calculate_checksum ([] ++ ("f.txt", [1]) :: [("g.txt", [3])])
        ≠ calculate_checksum ([] ++ ("f.txt", [2]) :: [("g.txt", [3])])
    ∧ calculate_checksum (("new.bin", [5]) :: [("b.txt", [1]), ("a.txt", [2])])
        ≠ calculate_checksum [("b.txt", [1]), ("a.txt", [2])] :=
  C1_checksum_amended [("b.txt", [1]), ("a.txt", [2])] [("a.txt", [2]), ("b.txt", [1])]
    [] [("g.txt", [3])] "f.txt" "new.bin" [1] [2] [5]
    (by decide) (by decide) (by decide) (by decide) (by decide) (by decide) (by decide)

/-- C9: `calculate_checksum` excludes every file whose base name is
`manifest.json`, at any depth of the tree; consequently two trees whose
non-`manifest.json` files agree (up to enumeration order, with
duplicate-free paths) have equal checksums. -/
theorem C9_manifest_excluded_everywhere (l l₁ l₂ : List FileEntry)
    (hnd0 : (l.map Prod.fst).Nodup)
    (hfp : (l₁.filter keepFile).Perm (l₂.filter keepFile))
    (hnd : ((l₁.filter keepFile).map Prod.fst).Nodup) :
    calculate_checksum (l.filter keepFile) = calculate_checksum l
    ∧ calculate_checksum l₁ = calculate_checksum l₂ := by
  have hself : (l.filter keepFile).filter keepFile = l.filter keepFile :=
    List.filter_eq_self.mpr (fun a ha => List.of_mem_filter ha)
  constructor
  · apply calculate_checksum_eq_of_filter_perm
    · rw [hself]
    · rw [hself]
      exact hnd0.sublist ((List.filter_sublist l).map Prod.fst)
  · exact calculate_checksum_eq_of_filter_perm l₁ l₂ hfp hnd

/-- Witness for C9: trees carrying `manifest.json` files at the root and at
nested depth hash identically to the tree without them. -/
theorem C9_manifest_excluded_witness :
    calculate_checksum ([("x/manifest.json", [9]), ("a.txt", [1])].filter keepFile)
        = calculate_checksum [("x/manifest.json", [9]), ("a.txt", [1])]
    ∧ calculate_checksum [("a.txt", [1]), ("deep/dir/manifest.json", [3])]
        = calculate_checksum [("a.txt", [1]), ("manifest.json", [4])] :=
  C9_manifest_excluded_everywhere
    [("x/manifest.json", [9]), ("a.txt", [1])]
    [("a.txt", [1]), ("deep/dir/manifest.json", [3])]
    [("a.txt", [1]), ("manifest.json", [4])]
    (by decide) (by decide) (by decide)

/-! ## C10 and C7: `read_choice` bounds and the restore backup selection -/

/-- `read_choice` always returns a value in `1..len(options)` when the
options list is non-empty, whatever the input events are. -/
theorem read_choice_run_range (options : List String) (hne : options ≠ []) :
    ∀ evs : List InputEvent,
      1 ≤ (read_choice_run options evs).1
        ∧ (read_choice_run options evs).1 ≤ options.length := by
  have hlen : 1 ≤ options.length := List.length_pos.mpr hne
  intro evs
  induction evs with
  | nil => exact ⟨le_refl 1, hlen⟩
  | cons e rest ih =>
    cases e with
    | interrupted => exact ⟨le_refl 1, hlen⟩
    | line s =>
      simp only [read_choice_run]
      by_cases h1 : (stripChars s).isEmpty
      · simp [h1]
        exact hlen
      · by_cases h2 : validChoice options.length (stripChars s)
        · simp [h1, h2]
          have hd := h2
          simp only [validChoice, Bool.and_eq_true, decide_eq_true_eq] at hd
          exact ⟨hd.1.2, hd.2⟩
        · simp [h1, h2]
          exact ih

/-- C10: for every non-empty options list, `read_choice` returns an integer
in `1..len(options)`; end-of-file, interrupt, and empty input all return 1;
consequently indexing the options list at the returned value minus one is
always in bounds. -/
theorem C10_read_choice_in_bounds (options : List String) (evs : List InputEvent)
    (s : List Char) (hne : options ≠ []) :
    (1 ≤ read_choice options evs ∧ read_choice options evs ≤ options.length)
    ∧ read_choice options [] = 1
    ∧ read_choice options (InputEvent.interrupted :: evs) = 1
    ∧ ((stripChars s).isEmpty = true →
        read_choice options (InputEvent.line s :: evs) = 1)
    ∧ read_choice options evs - 1 < options.length := by
  have hr := read_choice_run_range options hne evs
  refine ⟨hr, rfl, rfl, ?_, ?_⟩
  · intro h1
    simp [read_choice, read_choice_run, h1]
  · have h1 := hr.1
    have h2 := hr.2
    unfold read_choice at h1 h2 ⊢
    omega

/-- Witness for C10 on a two-option menu: the first input `7` is out of
range, the second input `2` is accepted. -/
theorem C10_read_choice_witness :
    (1 ≤ read_choice ["full", "shareable"] [InputEvent.line ['7'], InputEvent.line ['2']]
      ∧ read_choice ["full", "shareable"] [InputEvent.line ['7'], InputEvent.line ['2']]
          ≤ (["full", "shareable"] : List String).length)
    ∧ read_choice ["full", "shareable"] [] = 1
    ∧ read_choice ["full", "shareable"]
        (InputEvent.interrupted :: [InputEvent.line ['7'], InputEvent.line ['2']]) = 1
    ∧ ((stripChars [' ']).isEmpty = true →
        read_choice ["full", "shareable"]
          (InputEvent.line [' '] :: [InputEvent.line ['7'], InputEvent.line ['2']]) = 1)
    ∧ read_choice ["full", "shareable"] [InputEvent.line ['7'], InputEvent.line ['2']] - 1
        < (["full", "shareable"] : List String).length :=
  C10_read_choice_in_bounds ["full", "shareable"]
    [InputEvent.line ['7'], InputEvent.line ['2']] [' '] (List.cons_ne_nil _ _)

/-- C7 (amended): the backups offered during restore are exactly the
directory names under `backups/`, in sorted (lexicographic) order, chosen by
1-based index; an empty `backups/` aborts the restore fatally; a non-empty
invalid input line (out-of-range or non-numeric) prints the valid-range
error and re-prompts, while an empty input line selects the default 1. -/
theorem C7_restore_selection_amended (entries : List (String × Bool))
    (evs : List InputEvent) (s : List Char) (n : String)
    (hne : list_backups entries ≠ [])
    (hs : (stripChars s).isEmpty = false)
    (hinv : validChoice (list_backups entries).length (stripChars s) = false) :
    (list_backups entries).Sorted strLe
    ∧ (n ∈ list_backups entries ↔ (n, true) ∈ entries)
    ∧ (∀ es : List (String × Bool), list_backups es = [] →
        select_backup es evs = Except.error "No backups found in repository")
    ∧ select_backup entries evs
        = Except.ok ((list_backups entries).getD
            (read_choice (list_backups entries) evs - 1) "")
    ∧ read_choice (list_backups entries) evs - 1 < (list_backups entries).length
    ∧ read_choice_run (list_backups entries) (InputEvent.line s :: evs)
        = ((read_choice_run (list_backups entries) evs).1,
           invalidChoiceMsg (list_backups entries).length
             :: (read_choice_run (list_backups entries) evs).2) := by
  refine ⟨?_, ?_, ?_, ?_, ?_, ?_⟩
  · exact List.sorted_insertionSort _ _
  · rw [list_backups, List.mem_insertionSort]
    constructor
    · intro h
      rcases List.mem_map.mp h with ⟨⟨a, b⟩, he, rfl⟩
      have hf := List.mem_filter.mp he
      have hb : b = true := by simpa using hf.2
      subst hb
      exact hf.1
    · intro h
      exact List.mem_map.mpr ⟨(n, true), List.mem_filter.mpr ⟨h, rfl⟩, rfl⟩
  · intro es hes
    simp [select_backup, hes]
  · have hemp : (list_backups entries).isEmpty = false := by
      simpa using hne
    simp [select_backup, hemp, read_choice]
  · have hr := read_choice_run_range (list_backups entries) hne evs
    have h1 := hr.1
    have h2 := hr.2
    unfold read_choice
    omega
  · simp [read_choice_run, hs, hinv]

/-- Witness for C7: a repository with the backup directories
`bash-host1-20240101` and `zsh-host2-20240215` (plus a stray regular file),
input `9` rejected then `2` accepted. -/
theorem C7_restore_selection_witness :
    (list_backups [("zsh-host2-20240215", true), ("notes.txt", false),
        ("bash-host1-20240101", true)]).Sorted strLe
    ∧ ("bash-host1-20240101" ∈ list_backups [("zsh-host2-20240215", true),
          ("notes.txt", false), ("bash-host1-20240101", true)]
        ↔ ("bash-host1-20240101", true) ∈ [("zsh-host2-20240215", true),
          ("notes.txt", false), ("bash-host1-20240101", true)])
    ∧ (∀ es : List (String × Bool), list_backups es = [] →
        select_backup es [InputEvent.line ['2']]
          = Except.error "No backups found in repository")
    ∧ select_backup [("zsh-host2-20240215", true), ("notes.txt", false),
          ("bash-host1-20240101", true)] [InputEvent.line ['2']]
        = Except.ok ((list_backups [("zsh-host2-20240215", true), ("notes.txt", false),
            ("bash-host1-20240101", true)]).getD
          (read_choice (list_backups [("zsh-host2-20240215", true), ("notes.txt", false),
            ("bash-host1-20240101", true)]) [InputEvent.line ['2']] - 1) "")
    ∧ read_choice (list_backups [("zsh-host2-20240215", true), ("notes.txt", false),
          ("bash-host1-20240101", true)]) [InputEvent.line ['2']] - 1
        < (list_backups [("zsh-host2-20240215", true), ("notes.txt", false),
            ("bash-host1-20240101", true)]).length
    ∧ read_choice_run (list_backups [("zsh-host2-20240215", true), ("notes.txt", false),
          ("bash-host1-20240101", true)]) (InputEvent.line ['9'] :: [InputEvent.line ['2']])
        = ((read_choice_run (list_backups [("zsh-host2-20240215", true), ("notes.txt", false),
              ("bash-host1-20240101", true)]) [InputEvent.line ['2']]).1,
           invalidChoiceMsg (list_backups [("zsh-host2-20240215", true), ("notes.txt", false),
              ("bash-host1-20240101", true)]).length
             :: (read_choice_run (list_backups [("zsh-host2-20240215", true),
                  ("notes.txt", false), ("bash-host1-20240101", true)])
                  [InputEvent.line ['2']]).2) :=
  C7_restore_selection_amended
    [("zsh-host2-20240215", true), ("notes.txt", false), ("bash-host1-20240101", true)]
    [InputEvent.line ['2']] ['9'] "bash-host1-20240101"
    (by decide) (by decide) (by decide)

/-! ## C6: `sanitize_name` -/

/-- Characters of `collapseDots l` come from `l`. -/
theorem mem_of_mem_collapseDots :
    ∀ {l : List Char} {c : Char}, c ∈ collapseDots l → c ∈ l := by
  intro l
  induction l with
  | nil => intro c hc; simp [collapseDots] at hc
  | cons a rest ih =>
    intro c hc
    by_cases h : (a == '.' && (rest.head? == some '.')) = true
    · rw [collapseDots, if_pos h] at hc
      exact List.mem_cons_of_mem a (ih hc)
    · rw [collapseDots, if_neg h] at hc
      rcases List.mem_cons.mp hc with h1 | h1
      · simp [h1]
      · exact List.mem_cons_of_mem a (ih h1)

/-- Collapsing dots does not change the first character. -/
theorem head?_collapseDots : ∀ (l : List Char), (collapseDots l).head? = l.head? := by
  intro l
  induction l with
  | nil => rfl
  | cons a rest ih =>
    by_cases h : (a == '.' && (rest.head? == some '.')) = true
    · rw [collapseDots, if_pos h, ih]
      simp only [Bool.and_eq_true, beq_iff_eq] at h
      obtain ⟨h1, h2⟩ := h
      rw [h2, h1]
      rfl
    · rw [collapseDots, if_neg h]
      rfl

/-- After collapsing, no two consecutive dots remain. -/
theorem hasDoubleDot_collapseDots (l : List Char) :
    hasDoubleDot (collapseDots l) = false := by
  induction l with
  | nil => rfl
  | cons a rest ih =>
    by_cases h : (a == '.' && (rest.head? == some '.')) = true
    · rw [collapseDots, if_pos h]
      exact ih
    · rw [collapseDots, if_neg h]
      cases hr : collapseDots rest with
      | nil => rfl
      | cons b t =>
        have hb : rest.head? = some b := by
          have hh := head?_collapseDots rest
          rw [hr] at hh
          exact hh.symm
        have hnd : (a == '.' && b == '.') = false := by
          rcases hx : (a == '.' && b == '.') with _ | _
          · rfl
          · exfalso
            simp only [Bool.and_eq_true, beq_iff_eq] at hx
            exact h (by simp [hx.1, hb, hx.2])
        rw [hr] at ih
        simp [hasDoubleDot, hnd, ih]

/-- A prefix of a string without consecutive dots has none either. -/
theorem hasDoubleDot_take :
    ∀ (l : List Char) (n : Nat), hasDoubleDot l = false → hasDoubleDot (l.take n) = false
  | [], n, _ => by cases n <;> rfl
  | _ :: _, 0, _ => rfl
  | [_], n + 1, _ => by cases n <;> rfl
  | a :: b :: t, n + 1, h => by
    have hp : (a == '.' && b == '.') = false ∧ hasDoubleDot (b :: t) = false := by
      simpa [hasDoubleDot] using h
    have hrec := hasDoubleDot_take (b :: t) n hp.2
    cases n with
    | zero => rfl
    | succ m =>
      rw [List.take_succ_cons] at hrec ⊢
      rw [List.take_succ_cons]
      simp [hasDoubleDot, hp.1]
      simpa [hasDoubleDot] using hrec

/-- Every `digitChar` is in the allowed character class. -/
theorem isAllowedChar_digitChar (n : Nat) : isAllowedChar (digitChar n) = true := by
  unfold digitChar
  have hbound : n % 10 < 10 := Nat.mod_lt _ (by decide)
  set k := n % 10 with hk
  interval_cases k <;> decide

/-- No `digitChar` is a dot. -/
theorem digitChar_ne_dot (n : Nat) : digitChar n ≠ '.' := by
  unfold digitChar
  have hbound : n % 10 < 10 := Nat.mod_lt _ (by decide)
  set k := n % 10 with hk
  interval_cases k <;> decide

/-- Characters of `pad2` are digit characters. -/
theorem mem_pad2 {c : Char} {n : Nat} (hc : c ∈ pad2 n) : ∃ m, c = digitChar m := by
  simp only [pad2, List.mem_cons, List.not_mem_nil, or_false] at hc
  rcases hc with h | h
  · exact ⟨_, h⟩
  · exact ⟨_, h⟩

/-- Characters of `pad4` are digit characters. -/
theorem mem_pad4 {c : Char} {n : Nat} (hc : c ∈ pad4 n) : ∃ m, c = digitChar m := by
  simp only [pad4, List.mem_cons, List.not_mem_nil, or_false] at hc
  rcases hc with h | h | h | h
  · exact ⟨_, h⟩
  · exact ⟨_, h⟩
  · exact ⟨_, h⟩
  · exact ⟨_, h⟩

/-- Every character of a timestamp is a digit character or the dash. -/
theorem mem_timestampChars {c : Char} {y mo d h mi s : Nat}
    (hc : c ∈ timestampChars y mo d h mi s) :
    (∃ m, c = digitChar m) ∨ c = '-' := by
  simp only [timestampChars, List.mem_append] at hc
  rcases hc with (((((h | h) | h) | h) | h) | h) | h
  · exact Or.inl (mem_pad4 h)
  · exact Or.inl (mem_pad2 h)
  · exact Or.inl (mem_pad2 h)
  · exact Or.inr (by simpa using h)
  · exact Or.inl (mem_pad2 h)
  · exact Or.inl (mem_pad2 h)
  · exact Or.inl (mem_pad2 h)

/-- Every character of the fallback name is in the allowed class. -/
theorem fallbackName_allowed {c : Char} {y mo d h mi s : Nat}
    (hc : c ∈ fallbackName y mo d h mi s) : isAllowedChar c = true := by
  rcases List.mem_append.mp hc with h1 | h1
  · have hall : ∀ x ∈ "backup-".data, isAllowedChar x = true := by decide
    exact hall c h1
  · rcases mem_timestampChars h1 with ⟨m, rfl⟩ | rfl
    · exact isAllowedChar_digitChar m
    · decide

/-- A string without any dot has no double dot. -/
theorem hasDoubleDot_of_no_dot :
    ∀ (l : List Char), (∀ c ∈ l, c ≠ '.') → hasDoubleDot l = false
  | [], _ => rfl
  | [_], _ => rfl
  | a :: b :: t, h => by
    have ha : a ≠ '.' := h a (by simp)
    have hrec := hasDoubleDot_of_no_dot (b :: t)
      (fun c hc => h c (List.mem_cons_of_mem a hc))
    simp [hasDoubleDot, hrec, ha]

/-- The fallback name contains no dot at all, hence no double dot. -/
theorem fallbackName_no_double_dot (y mo d h mi s : Nat) :
    hasDoubleDot (fallbackName y mo d h mi s) = false := by
  apply hasDoubleDot_of_no_dot
  intro c hc
  rcases List.mem_append.mp hc with h1 | h1
  · have hall : ∀ x ∈ "backup-".data, x ≠ '.' := by decide
    exact hall c h1
  · rcases mem_timestampChars h1 with ⟨m, rfl⟩ | rfl
    · exact digitChar_ne_dot m
    · decide

/-- The fallback name always has exactly 22 characters. -/
theorem fallbackName_length (y mo d h mi s : Nat) :
    (fallbackName y mo d h mi s).length = 22 := rfl

/-- The fallback name is never empty. -/
theorem fallbackName_ne_nil (y mo d h mi s : Nat) :
    fallbackName y mo d h mi s ≠ [] := by
  intro hcontra
  have hlen := fallbackName_length y mo d h mi s
  rw [hcontra] at hlen
  simp at hlen

/-- C6: for every input string, `sanitize_name` returns a string over
`[A-Za-z0-9._-]` only, with no run of two or more consecutive dots, of
length at most 100; and when the input is empty or consists only of
disallowed characters the result is the (non-empty) timestamp-based
fallback name. -/
theorem C6_sanitize_name_ok (name : List Char) (y mo d h mi s : Nat) :
    (∀ c ∈ sanitize_name name y mo d h mi s, isAllowedChar c = true)
    ∧ hasDoubleDot (sanitize_name name y mo d h mi s) = false
    ∧ (sanitize_name name y mo d h mi s).length ≤ 100
    ∧ (name.filter isAllowedChar = [] →
        sanitize_name name y mo d h mi s = fallbackName y mo d h mi s
        ∧ sanitize_name name y mo d h mi s ≠ []) := by
  simp only [sanitize_name]
  generalize hn1 : name.filter isAllowedChar = n1
  generalize hn2 : collapseDots n1 = n2
  by_cases h100 : 100 < n2.length
  · rw [if_pos h100]
    by_cases hemp : (n2.take 100).isEmpty
    · rw [if_pos hemp]
      refine ⟨fun c hc => fallbackName_allowed hc,
        fallbackName_no_double_dot y mo d h mi s, ?_,
        fun _ => ⟨rfl, fallbackName_ne_nil y mo d h mi s⟩⟩
      rw [fallbackName_length]
      omega
    · rw [if_neg hemp]
      refine ⟨?_, ?_, ?_, ?_⟩
      · intro c hc
        have hmem := List.take_subset 100 n2 hc
        rw [← hn2] at hmem
        have hmem2 := mem_of_mem_collapseDots hmem
        rw [← hn1] at hmem2
        exact List.of_mem_filter hmem2
      · apply hasDoubleDot_take
        rw [← hn2]
        exact hasDoubleDot_collapseDots n1
      · rw [List.length_take]
        omega
      · intro hf
        exfalso
        have hz : n2.length = 0 := by
          rw [← hn2, hf]
          rfl
        omega
  · rw [if_neg h100]
    by_cases hemp : n2.isEmpty
    · rw [if_pos hemp]
      refine ⟨fun c hc => fallbackName_allowed hc,
        fallbackName_no_double_dot y mo d h mi s, ?_,
        fun _ => ⟨rfl, fallbackName_ne_nil y mo d h mi s⟩⟩
      rw [fallbackName_length]
      omega
    · rw [if_neg hemp]
      refine ⟨?_, ?_, ?_, ?_⟩
      · intro c hc
        rw [← hn2] at hc
        have hmem2 := mem_of_mem_collapseDots hc
        rw [← hn1] at hmem2
        exact List.of_mem_filter hmem2
      · rw [← hn2]
        exact hasDoubleDot_collapseDots n1
      · omega
      · intro hf
        exfalso
        apply hemp
        rw [← hn2, hf]
        rfl

/-- Witness for C6 at a concrete input and wall-clock time. -/
theorem C6_sanitize_name_witness :
    (∀ c ∈ sanitize_name ['a', '/', '.', '.', 'b'] 2024 6 1 12 30 45,
        isAllowedChar c = true)
    ∧ hasDoubleDot (sanitize_name ['a', '/', '.', '.', 'b'] 2024 6 1 12 30 45) = false
    ∧ (sanitize_name ['a', '/', '.', '.', 'b'] 2024 6 1 12 30 45).length ≤ 100
    ∧ (['a', '/', '.', '.', 'b'].filter isAllowedChar = [] →
        sanitize_name ['a', '/', '.', '.', 'b'] 2024 6 1 12 30 45
          = fallbackName 2024 6 1 12 30 45
        ∧ sanitize_name ['a', '/', '.', '.', 'b'] 2024 6 1 12 30 45 ≠ []) :=
  C6_sanitize_name_ok ['a', '/', '.', '.', 'b'] 2024 6 1 12 30 45

/-! ## C5 (amended): package export is best-effort, status unconditional -/

/-- C5 (amended): in `backup_packages`, for the apt and pacman managers, each
subcommand's output file is written iff that subcommand exits zero (a
non-zero exit means the file is simply not written), and the category is
reported `"ok"` unconditionally — even when no file at all was produced. -/
theorem C5_packages_amended (oracle : CmdOracle) :
    (Effect.writeE "packages/apt_packages.txt" ∈ (backup_packages false "apt" oracle).1
      ↔ (oracle ["apt", "list", "--installed"]).1 = 0)
    ∧ (Effect.writeE "packages/apt_manual.txt" ∈ (backup_packages false "apt" oracle).1
      ↔ (oracle ["apt-mark", "showmanual"]).1 = 0)
    ∧ (backup_packages false "apt" oracle).2 = [("APT packages", StatusKind.ok)]
    ∧ (Effect.writeE "packages/pacman_packages.txt" ∈ (backup_packages false "pacman" oracle).1
      ↔ (oracle ["pacman", "-Qe"]).1 = 0)
    ∧ (Effect.writeE "packages/pacman_aur.txt" ∈ (backup_packages false "pacman" oracle).1
      ↔ (oracle ["pacman", "-Qm"]).1 = 0)
    ∧ (backup_packages false "pacman" oracle).2 = [("Pacman packages", StatusKind.ok)] := by
  refine ⟨?_, ?_, ?_, ?_, ?_, ?_⟩
  · by_cases h1 : (oracle ["apt", "list", "--installed"]).1 = 0 <;>
    by_cases h2 : (oracle ["apt-mark", "showmanual"]).1 = 0 <;>
      simp [backup_packages, h1, h2]
  · by_cases h1 : (oracle ["apt", "list", "--installed"]).1 = 0 <;>
    by_cases h2 : (oracle ["apt-mark", "showmanual"]).1 = 0 <;>
      simp [backup_packages, h1, h2]
  · by_cases h1 : (oracle ["apt", "list", "--installed"]).1 = 0 <;>
    by_cases h2 : (oracle ["apt-mark", "showmanual"]).1 = 0 <;>
      simp [backup_packages, h1, h2]
  · by_cases h1 : (oracle ["pacman", "-Qe"]).1 = 0 <;>
    by_cases h2 : (oracle ["pacman", "-Qm"]).1 = 0 <;>
      simp [backup_packages, h1, h2]
  · by_cases h1 : (oracle ["pacman", "-Qe"]).1 = 0 <;>
    by_cases h2 : (oracle ["pacman", "-Qm"]).1 = 0 <;>
      simp [backup_packages, h1, h2]
  · by_cases h1 : (oracle ["pacman", "-Qe"]).1 = 0 <;>
    by_cases h2 : (oracle ["pacman", "-Qm"]).1 = 0 <;>
      simp [backup_packages, h1, h2]

/-! ## C2 (amended): the dry-run frame property -/

/-- C2 (amended): with dry-run enabled, no backup category routine performs
any filesystem write other than directory creation, for every home-directory
content, package manager and command outcome.  The fish, packages, ssh,
conda and history categories report only "info" (or "skip" when the artifact
is absent); bash, zsh, starship and git-config report exactly the statuses
of a real run (so `"ok"` when their files exist); and cloud-credentials
always reports `"ok"` under dry-run. -/
theorem C2_dry_run_amended (fs : HomeFS) (pm : String) (oracle : CmdOracle) :
    ((backup_fish fs true).1.all Effect.isMkdir) = true
    ∧ ((backup_bash fs true).1.all Effect.isMkdir) = true
    ∧ ((backup_zsh fs true).1.all Effect.isMkdir) = true
    ∧ ((backup_packages true pm oracle).1.all Effect.isMkdir) = true
    ∧ ((backup_starship fs true).1.all Effect.isMkdir) = true
    ∧ ((backup_git_config fs true).1.all Effect.isMkdir) = true
    ∧ ((backup_ssh fs true).1.all Effect.isMkdir) = true
    ∧ ((backup_conda fs true oracle).1.all Effect.isMkdir) = true
    ∧ ((backup_history fs true).1.all Effect.isMkdir) = true
    ∧ ((backup_cloud_creds fs true).1.all Effect.isMkdir) = true
    ∧ ((backup_fish fs true).2.all
        (fun st => st.2 == StatusKind.info || st.2 == StatusKind.skip)) = true
    ∧ ((backup_packages true pm oracle).2.all
        (fun st => st.2 == StatusKind.info)) = true
    ∧ ((backup_ssh fs true).2.all
        (fun st => st.2 == StatusKind.info || st.2 == StatusKind.skip)) = true
    ∧ ((backup_conda fs true oracle).2.all
        (fun st => st.2 == StatusKind.info || st.2 == StatusKind.skip)) = true
    ∧ ((backup_history fs true).2.all
        (fun st => st.2 == StatusKind.info)) = true
    ∧ (backup_bash fs true).2 = (backup_bash fs false).2
    ∧ (backup_zsh fs true).2 = (backup_zsh fs false).2
    ∧ (backup_starship fs true).2 = (backup_starship fs false).2
    ∧ (backup_git_config fs true).2 = (backup_git_config fs false).2
    ∧ ((backup_cloud_creds fs true).2.map Prod.snd) = [StatusKind.ok] := by
  refine ⟨?_, ?_, ?_, ?_, ?_, ?_, ?_, ?_, ?_, ?_,
    ?_, ?_, ?_, ?_, ?_, ?_, ?_, ?_, ?_, ?_⟩
  · by_cases h : ".config/fish" ∈ fs.dirs <;>
      simp [backup_fish, h, Effect.isMkdir]
  · simp [backup_bash, Effect.isMkdir]
  · by_cases h : ".oh-my-zsh" ∈ fs.dirs <;>
      simp [backup_zsh, h, Effect.isMkdir]
  · simp [backup_packages, Effect.isMkdir]
  · by_cases h : ".config/starship.toml" ∈ fs.files <;>
      simp [backup_starship, h, Effect.isMkdir]
  · by_cases h : ".gitconfig" ∈ fs.files <;>
      simp [backup_git_config, h, Effect.isMkdir]
  · by_cases h : ".ssh" ∈ fs.dirs <;>
      simp [backup_ssh, h, Effect.isMkdir]
  · cases h : condaCandidates.find? (fun p => fs.files.contains (p ++ "/bin/conda")) <;>
      · simp only [backup_conda]
        rw [h]
        simp [Effect.isMkdir]
  · simp [backup_history, Effect.isMkdir]
  · simp [backup_cloud_creds, Effect.isMkdir]
  · by_cases h : ".config/fish" ∈ fs.dirs <;> simp [backup_fish, h]
  · simp [backup_packages]
  · by_cases h : ".ssh" ∈ fs.dirs <;> simp [backup_ssh, h]
  · cases h : condaCandidates.find? (fun p => fs.files.contains (p ++ "/bin/conda")) <;>
      · simp only [backup_conda]
        rw [h]
        simp
  · simp [backup_history]
  · rfl
  · rfl
  · by_cases h : ".config/starship.toml" ∈ fs.files <;>
      simp [backup_starship, h]
  · by_cases h : ".gitconfig" ∈ fs.files <;>
      simp [backup_git_config, h]
  · rfl

/-- Witness for C5 (amended) with an oracle on which every command fails. -/
theorem C5_packages_amended_witness :
    (Effect.writeE "packages/apt_packages.txt"
        ∈ (backup_packages false "apt" failOracle).1
      ↔ (failOracle ["apt", "list", "--installed"]).1 = 0)
    ∧ (Effect.writeE "packages/apt_manual.txt"
        ∈ (backup_packages false "apt" failOracle).1
      ↔ (failOracle ["apt-mark", "showmanual"]).1 = 0)
    ∧ (backup_packages false "apt" failOracle).2 = [("APT packages", StatusKind.ok)]
    ∧ (Effect.writeE "packages/pacman_packages.txt"
        ∈ (backup_packages false "pacman" failOracle).1
      ↔ (failOracle ["pacman", "-Qe"]).1 = 0)
    ∧ (Effect.writeE "packages/pacman_aur.txt"
        ∈ (backup_packages false "pacman" failOracle).1
      ↔ (failOracle ["pacman", "-Qm"]).1 = 0)
    ∧ (backup_packages false "pacman" failOracle).2
        = [("Pacman packages", StatusKind.ok)] :=
  C5_packages_amended failOracle

/-- Witness for C2 (amended) on the empty home directory. -/
theorem C2_dry_run_amended_witness :
    ((backup_fish emptyHome true).1.all Effect.isMkdir) = true
    ∧ ((backup_bash emptyHome true).1.all Effect.isMkdir) = true
    ∧ ((backup_zsh emptyHome true).1.all Effect.isMkdir) = true
    ∧ ((backup_packages true "apt" failOracle).1.all Effect.isMkdir) = true
    ∧ ((backup_starship emptyHome true).1.all Effect.isMkdir) = true
    ∧ ((backup_git_config emptyHome true).1.all Effect.isMkdir) = true
    ∧ ((backup_ssh emptyHome true).1.all Effect.isMkdir) = true
    ∧ ((backup_conda emptyHome true failOracle).1.all Effect.isMkdir) = true
    ∧ ((backup_history emptyHome true).1.all Effect.isMkdir) = true
    ∧ ((backup_cloud_creds emptyHome true).1.all Effect.isMkdir) = true
    ∧ ((backup_fish emptyHome true).2.all
        (fun st => st.2 == StatusKind.info || st.2 == StatusKind.skip)) = true
    ∧ ((backup_packages true "apt" failOracle).2.all
        (fun st => st.2 == StatusKind.info)) = true
    ∧ ((backup_ssh emptyHome true).2.all
        (fun st => st.2 == StatusKind.info || st.2 == StatusKind.skip)) = true
    ∧ ((backup_conda emptyHome true failOracle).2.all
        (fun st => st.2 == StatusKind.info || st.2 == StatusKind.skip)) = true
    ∧ ((backup_history emptyHome true).2.all
        (fun st => st.2 == StatusKind.info)) = true
    ∧ (backup_bash emptyHome true).2 = (backup_bash emptyHome false).2
    ∧ (backup_zsh emptyHome true).2 = (backup_zsh emptyHome false).2
    ∧ (backup_starship emptyHome true).2 = (backup_starship emptyHome false).2
    ∧ (backup_git_config emptyHome true).2 = (backup_git_config emptyHome false).2
    ∧ ((backup_cloud_creds emptyHome true).2.map Prod.snd) = [StatusKind.ok] :=
  C2_dry_run_amended emptyHome "apt" failOracle
